import Mathlib

/-!
Shallow embedding of the ReemTeam Tonk game engine
(`src/game/deck.ts`, `src/game/gameEngine.ts`, `src/game/aiPlayer.ts`,
`src/sockets.ts` round-transition helper), together with theorems about
the engine's behaviour.

Modelling conventions:
* TypeScript `throw` is modelled with `Except String`; a thrown error leaves
  no state behind, which models the caller keeping its previous state.
* The MongoDB wallet collection is modelled as an association list
  `Wallets` from userId to `availableBalance`; a missing key models a
  missing wallet document (AI players have none).  The write-only `Match`,
  `Transaction` and earnings-history records are not modelled: nothing in
  the engine ever reads them back.
* `Math.random()` inputs (the shuffle, the AI's random discard index) are
  injected as explicit arguments.
* `lastAction` is kept as the action-type tag only; its payload and
  `Date.now()` timestamp are UI metadata never read by the engine.
* JavaScript numbers holding money are modelled as `Int` (they are compared
  against 0 after subtraction); card values and counters as `Nat`
  (`Math.max(0, c - 1)` coincides with `Nat` subtraction).
-/

namespace ReemTeam

/-- Card suit, from `deck.ts` `CardSuit`. -/
inductive CardSuit
  | Hearts | Diamonds | Clubs | Spades
deriving DecidableEq, Repr

/-- Card rank, from `deck.ts` `CardRank` (40-card deck: no 8, 9, 10). -/
inductive CardRank
  | Ace | Two | Three | Four | Five | Six | Seven | Jack | Queen | King
deriving DecidableEq, Repr

/-- A card, from `deck.ts` `Card`.  The `value` field travels with the card
object exactly as in the source. -/
structure Card where
  suit : CardSuit
  rank : CardRank
  value : Nat
deriving DecidableEq, Repr

/-- `SUITS` from `deck.ts`. -/
def SUITS : List CardSuit := [.Hearts, .Diamonds, .Clubs, .Spades]

/-- `RANKS_AND_VALUES` from `deck.ts`: Ace=1, 2-7 face, J/Q/K=10. -/
def RANKS_AND_VALUES : List (CardRank × Nat) :=
  [(.Ace, 1), (.Two, 2), (.Three, 3), (.Four, 4), (.Five, 5),
   (.Six, 6), (.Seven, 7), (.Jack, 10), (.Queen, 10), (.King, 10)]

/-- `createDeck` from `deck.ts`: the canonical 40-card sequence. -/
def createDeck : List Card :=
  SUITS.foldr (fun s acc =>
    (RANKS_AND_VALUES.map (fun rv => { suit := s, rank := rv.1, value := rv.2 })) ++ acc) []

/-- One round-robin pass of dealing: give the front card of the deck to each
hand in seat order (`deck.ts` `dealCards` inner loop body). -/
def giveOneEach : List Card → List (List Card) → Option (List Card × List (List Card))
  | deck, [] => some (deck, [])
  | [], _ :: _ => none
  | c :: deck, h :: hs =>
    match giveOneEach deck hs with
    | some (deck2, hs2) => some (deck2, (h ++ [c]) :: hs2)
    | none => none

/-- `cardsPerPlayer` round-robin passes (`deck.ts` `dealCards` outer loop). -/
def dealRounds : Nat → List Card → List (List Card) → Option (List Card × List (List Card))
  | 0, deck, hands => some (deck, hands)
  | i + 1, deck, hands =>
    match giveOneEach deck hands with
    | some (deck2, hands2) => dealRounds i deck2 hands2
    | none => none

/-- `dealCards` from `deck.ts`. -/
def dealCards (shuffledDeck : List Card) (numberOfPlayers : Nat) (cardsPerPlayer : Nat) :
    Except String (List Card × List (List Card)) :=
  if numberOfPlayers < 2 ∨ numberOfPlayers > 4 then
    throw "Number of players must be between 2 and 4."
  else if shuffledDeck.length < numberOfPlayers * cardsPerPlayer then
    throw "Not enough cards in the deck to deal."
  else
    match dealRounds cardsPerPlayer shuffledDeck (List.replicate numberOfPlayers []) with
    | some (deck, hands) => pure (deck, hands)
    | none => throw "Unexpected: Ran out of cards during dealing."

/-- Game status, from `gameEngine.ts` `IGameState.status`. -/
inductive GameStatus
  | waiting | starting | inProgress | roundEnd | gameEnd
deriving DecidableEq, Repr

/-- How a round ended, from `gameEngine.ts` `IGameState.roundEndedBy`. -/
inductive RoundEndReason
  | REGULAR | REEM | AUTO_TRIPLE | CAUGHT_DROP | DECK_EMPTY
deriving DecidableEq, Repr

/-- A seated player's live state, from `gameEngine.ts` `IGameState.players[i]`.
`restrictedDiscardCard` holds the `rank-suit` identity string's content as the
pair (rank, suit): the string `rank + "-" + suit` is injective on that pair. -/
structure Player where
  userId : String
  username : String
  hand : List Card
  isAI : Bool
  isHitLocked : Bool
  hitLockCounter : Nat
  spreads : List (List Card)
  hasTakenActionThisTurn : Bool
  currentBuyIn : Int
  restrictedDiscardCard : Option (CardRank × CardSuit)
deriving DecidableEq, Repr

/-- The live table state, from `gameEngine.ts` `IGameState`.
`currentPlayerIndex` is an `Int` because the source stores `-1` at auto-win. -/
structure IGameState where
  tableId : String
  currentDealerIndex : Nat
  players : List Player
  deck : List Card
  discardPile : List Card
  turn : Nat
  currentPlayerIndex : Int
  lastAction : Option String
  status : GameStatus
  baseStake : Int
  roundWins : List (String × Nat)
  pot : Int
  lockedAntes : List (String × Int)
  roundEndedBy : Option RoundEndReason
  roundWinnerId : Option String
  roundLoserId : Option String
  caughtDroppingPlayerId : Option String
  handScores : Option (List (String × Nat))
  payouts : Option (List (String × Int))
deriving DecidableEq, Repr

/-- The fallback player record used when indexing the players array (the
source's `players[playerIndex]` is always in range when `findIndex`
succeeded; a default is needed only to make `getD` total). -/
def emptyPlayer : Player :=
  { userId := "", username := "", hand := [], isAI := false, isHitLocked := false,
    hitLockCounter := 0, spreads := [], hasTakenActionThisTurn := false,
    currentBuyIn := 0, restrictedDiscardCard := none }

instance {e a : Type} [DecidableEq e] [DecidableEq a] : DecidableEq (Except e a)
  | .ok x, .ok y =>
    match decEq x y with
    | isTrue h => isTrue (by rw [h])
    | isFalse h => isFalse (fun hc => h (Except.ok.inj hc))
  | .error x, .error y =>
    match decEq x y with
    | isTrue h => isTrue (by rw [h])
    | isFalse h => isFalse (fun hc => h (Except.error.inj hc))
  | .ok _, .error _ => isFalse (fun h => Except.noConfusion h)
  | .error _, .ok _ => isFalse (fun h => Except.noConfusion h)

/-- JS object-as-map upsert: overwrite in place if the key is present,
else append (JS objects keep insertion order). -/
def setEntry {α : Type} (m : List (String × α)) (k : String) (v : α) : List (String × α) :=
  if m.any (fun e => e.1 == k) then
    m.map (fun e => if e.1 == k then (k, v) else e)
  else
    m ++ [(k, v)]

/-- JS object-as-map lookup. -/
def getEntry {α : Type} (m : List (String × α)) (k : String) : Option α :=
  (m.find? (fun e => e.1 == k)).map (fun e => e.2)

/-- Wallet collection: userId ↦ `availableBalance`. -/
abbrev Wallets : Type := List (String × Int)

/-- `calculateHandValue` from `gameEngine.ts`. -/
def calculateHandValue (hand : List Card) : Nat :=
  hand.foldl (fun sum card => sum + card.value) 0

/-- `calculateAllHandScores` from `gameEngine.ts`. -/
def calculateAllHandScores (players : List (String × List Card)) : List (String × Nat) :=
  players.map (fun p => (p.1, calculateHandValue p.2))

/-- `checkForAutomaticWins` from `gameEngine.ts`.  A hand value of 41 or ≤ 11
is an AUTO_TRIPLE and breaks the loop (first in seat order wins); a value of
50 or 47 records a REGULAR auto-win and keeps scanning (so a later qualifying
player overwrites it). -/
def checkForAutomaticWinsAux (acc : Option (String × RoundEndReason)) :
    List (String × List Card) → Option (String × RoundEndReason)
  | [] => acc
  | p :: rest =>
    let handValue := calculateHandValue p.2
    if handValue = 41 ∨ handValue ≤ 11 then
      some (p.1, .AUTO_TRIPLE)
    else if handValue = 50 ∨ handValue = 47 then
      checkForAutomaticWinsAux (some (p.1, .REGULAR)) rest
    else
      checkForAutomaticWinsAux acc rest

/-- Entry point of `checkForAutomaticWins`. -/
def checkForAutomaticWins (players : List (String × List Card)) :
    Option (String × RoundEndReason) :=
  checkForAutomaticWinsAux none players

/-- Result of `calculatePayouts`. -/
structure PayoutData where
  winnerPayout : Int
  penalties : List (String × Int)
deriving DecidableEq, Repr

/-- `calculatePayouts` from `gameEngine.ts`: dispatch on `roundEndedBy`. -/
def calculatePayouts (gs : IGameState) : PayoutData :=
  match gs.roundWinnerId with
  | none => { winnerPayout := 0, penalties := [] }
  | some roundWinnerId =>
    let losers := gs.players.filter (fun p => p.userId ≠ roundWinnerId)
    match gs.roundEndedBy with
    | some .REGULAR => { winnerPayout := gs.pot, penalties := [] }
    | some .DECK_EMPTY => { winnerPayout := gs.pot, penalties := [] }
    | some .REEM =>
      { winnerPayout := gs.pot + gs.baseStake * losers.length,
        penalties := losers.map (fun l => (l.userId, gs.baseStake)) }
    | some .AUTO_TRIPLE =>
      let penaltyAmount := gs.baseStake * 3
      { winnerPayout := gs.pot + penaltyAmount * losers.length,
        penalties := losers.map (fun l => (l.userId, penaltyAmount)) }
    | some .CAUGHT_DROP =>
      match gs.caughtDroppingPlayerId with
      | some caught => { winnerPayout := gs.pot + gs.baseStake, penalties := [(caught, gs.baseStake)] }
      | none => { winnerPayout := 0, penalties := [] }
    | none => { winnerPayout := 0, penalties := [] }

/-- `settleWallets` from `gameEngine.ts`: credit the winner's wallet (if it
exists; AI players have none), then debit each penalised player's wallet,
aborting the whole transaction if any balance would go negative.  The
`Match` / `Transaction` inserts are write-only records and are not modelled. -/
def settleWallets (gs : IGameState) (pd : PayoutData) (w : Wallets) : Except String Wallets :=
  match gs.roundWinnerId with
  | none => throw "Cannot settle wallets without a winner."
  | some roundWinnerId =>
    let w1 : Wallets :=
      match getEntry w roundWinnerId with
      | some bal => setEntry w roundWinnerId (bal + pd.winnerPayout)
      | none => w
    pd.penalties.foldlM (fun (wallets : Wallets) pen =>
      match getEntry wallets pen.1 with
      | some bal =>
        let nb := bal - pen.2
        if nb < 0 then
          throw ("Player " ++ pen.1 ++ " has insufficient funds to cover penalty.")
        else
          pure (setEntry wallets pen.1 nb)
      | none => pure wallets) w1

/-- `handleRoundEndPayouts` from `gameEngine.ts`.  Builds the `payouts` map by
JS object spread: winner entry, then base losses (−baseStake per non-winner),
then the penalties reduced into their own fresh map — whose keys overwrite the
base-loss entries. -/
def handleRoundEndPayouts (gs : IGameState) (w : Wallets) : Except String (IGameState × Wallets) :=
  if gs.status ≠ GameStatus.roundEnd then
    pure (gs, w)
  else do
    let payoutData := calculatePayouts gs
    let w2 ← settleWallets gs payoutData w
    let baseLosses : List (String × Int) :=
      gs.players.filterMap (fun p =>
        if some p.userId ≠ gs.roundWinnerId then some (p.userId, gs.baseStake) else none)
    let m0 : List (String × Int) := [(gs.roundWinnerId.getD "", payoutData.winnerPayout)]
    let m1 := baseLosses.foldl (fun acc e => setEntry acc e.1 (-e.2)) m0
    let penMap := payoutData.penalties.foldl
      (fun (acc : List (String × Int)) e => setEntry acc e.1 ((getEntry acc e.1).getD 0 - e.2)) []
    let m2 := penMap.foldl (fun acc e => setEntry acc e.1 e.2) m1
    pure ({ gs with payouts := some m2 }, w2)

/-- `handleBuyIn` from `gameEngine.ts`: for every player (AI included) the
ante inflates the pot and is recorded in `lockedAntes`; human players must
hold a wallet covering `baseStake`, which is debited immediately. -/
def handleBuyIn (gs : IGameState) (w : Wallets) : Except String (IGameState × Wallets) := do
  let res ← gs.players.foldlM
    (fun (acc : Int × List (String × Int) × Wallets × List Player) player => do
      let (pot, antes, wallets, ps) := acc
      let pot := pot + gs.baseStake
      let antes := setEntry antes player.userId gs.baseStake
      if player.isAI then
        pure (pot, antes, wallets, ps ++ [{ player with currentBuyIn := gs.baseStake }])
      else
        match getEntry wallets player.userId with
        | none => throw ("Wallet not found for player " ++ player.username ++ ".")
        | some bal =>
          if bal < gs.baseStake then
            throw ("Player " ++ player.username ++ " has insufficient funds for the ante.")
          else
            pure (pot, antes, setEntry wallets player.userId (bal - gs.baseStake),
              ps ++ [{ player with currentBuyIn := gs.baseStake }]))
    (gs.pot, gs.lockedAntes, w, [])
  pure ({ gs with players := res.2.2.2, pot := res.1, lockedAntes := res.2.1 }, res.2.2.1)

/-- Static seat info passed into `initializeGame`. -/
structure SeatedPlayer where
  userId : String
  username : String
  isAI : Bool
deriving DecidableEq, Repr

/-- The table fields `initializeGame` reads (`table._id`, `table.stake`). -/
structure TableInfo where
  tableId : String
  stake : Int
deriving DecidableEq, Repr

/-- `initializeGame` from `gameEngine.ts`.  The random `shuffleDeck` output is
injected as `shuffledDeck`.  Deals 5 cards round-robin, collects the buy-in,
and resolves automatic wins immediately (settling wallets).  The dealer index
is set to the constant 0 — the source never reads a dealer argument. -/
def initializeGame (shuffledDeck : List Card) (table : TableInfo)
    (players : List SeatedPlayer) (w : Wallets) : Except String (IGameState × Wallets) := do
  let dealt ← dealCards shuffledDeck players.length 5
  let initialPlayersState : List Player :=
    (players.zip dealt.2).map (fun pz =>
      { userId := pz.1.userId, username := pz.1.username, hand := pz.2, isAI := pz.1.isAI,
        isHitLocked := false, hitLockCounter := 0, spreads := [],
        hasTakenActionThisTurn := false, currentBuyIn := 0, restrictedDiscardCard := none })
  let initialGameState : IGameState :=
    { tableId := table.tableId, currentDealerIndex := 0, players := initialPlayersState,
      deck := dealt.1, discardPile := [], turn := 1, currentPlayerIndex := 0,
      lastAction := none, status := .starting, baseStake := table.stake, roundWins := [],
      pot := 0, lockedAntes := [], roundEndedBy := none, roundWinnerId := none,
      roundLoserId := none, caughtDroppingPlayerId := none, handScores := none,
      payouts := none }
  let bought ← handleBuyIn initialGameState w
  match checkForAutomaticWins (initialPlayersState.map (fun p => (p.userId, p.hand))) with
  | some autoWinResult =>
    if initialPlayersState.any (fun p => p.userId == autoWinResult.1) then
      let finalGameState : IGameState :=
        { bought.1 with
          currentDealerIndex := 0, currentPlayerIndex := -1,
          lastAction := some "autoWin", status := .roundEnd,
          roundEndedBy := some autoWinResult.2, roundWinnerId := some autoWinResult.1,
          handScores := some (calculateAllHandScores
            (bought.1.players.map (fun p => (p.userId, p.hand)))) }
      handleRoundEndPayouts finalGameState bought.2
    else
      pure bought
  | none => pure bought

/-- `nextTurn` from `gameEngine.ts`.  Note: the new `isHitLocked` is computed
from the counter BEFORE the decrement, exactly as in the source object
literal. -/
def nextTurn (gs : IGameState) : IGameState :=
  let nextPlayerIndex := (gs.currentPlayerIndex + 1) % (gs.players.length : Int)
  { gs with
    currentPlayerIndex := nextPlayerIndex,
    turn := gs.turn + 1,
    lastAction := none,
    players := gs.players.map (fun player =>
      { player with
        hasTakenActionThisTurn := false,
        hitLockCounter := player.hitLockCounter - 1,
        isHitLocked := player.hitLockCounter > 0,
        restrictedDiscardCard := none }) }

/-- The running-lowest accumulator of `playerDrawCard`'s deck-empty branch:
keep the first player whose hand value is strictly below the running lowest
(`Infinity` start is the `none` accumulator). -/
def lowestAcc (acc : Option Nat × String) (p : Player) : Option Nat × String :=
  let score := calculateHandValue p.hand
  match acc.1 with
  | none => (some score, p.userId)
  | some lowest => if score < lowest then (some score, p.userId) else acc

/-- Where a draw takes its card from. -/
inductive DrawSource
  | deck | discard
deriving DecidableEq, Repr

/-- `playerDrawCard` from `gameEngine.ts`.  There is no turn or
has-already-acted guard in the source.  An empty deck on a deck draw ends the
round with DECK_EMPTY, the winner being the first player with the lowest hand
value, and runs the payouts. -/
def playerDrawCard (gs : IGameState) (userId : String) (source : DrawSource) (w : Wallets) :
    Except String (IGameState × Wallets) := do
  match gs.players.findIdx? (fun p => p.userId == userId) with
  | none => throw ("Player " ++ userId ++ " not found.")
  | some playerIndex => do
    let player := gs.players.getD playerIndex emptyPlayer
    let drawData : Option (Card × List Card × List Card × Option (CardRank × CardSuit)) :=
      match source with
      | .discard =>
        match gs.discardPile.getLast? with
        | some drawnCard =>
          some (drawnCard, gs.deck, gs.discardPile.dropLast, some (drawnCard.rank, drawnCard.suit))
        | none => none
      | .deck =>
        match gs.deck with
        | drawnCard :: rest => some (drawnCard, rest, gs.discardPile, none)
        | [] => none
    match source, drawData with
    | .discard, none => throw "Discard pile is empty."
    | _, some dd => do
      let (drawnCard, newDeck, newDiscardPile, restrictedDiscardCard) := dd
      let updatedPlayers := gs.players.set playerIndex
        { player with
          hand := player.hand ++ [drawnCard], hasTakenActionThisTurn := true,
          restrictedDiscardCard := restrictedDiscardCard }
      pure ({ gs with
        deck := newDeck, discardPile := newDiscardPile,
        players := updatedPlayers, lastAction := some "drawCard" }, w)
    | .deck, none => do
      let best := gs.players.foldl lowestAcc (none, "")
      let updatedGameState : IGameState :=
        { gs with
          status := .roundEnd, roundEndedBy := some .DECK_EMPTY,
          roundWinnerId := some best.2, lastAction := some "deckEmpty",
          handScores := some (calculateAllHandScores
            (gs.players.map (fun p => (p.userId, p.hand)))) }
      handleRoundEndPayouts updatedGameState w

/-- `playerDiscardCard` from `gameEngine.ts` (synchronous in the source: it
never ends the round and never touches wallets). -/
def playerDiscardCard (gs : IGameState) (userId : String) (cardToDiscard : Card) :
    Except String IGameState := do
  match gs.players.findIdx? (fun p => p.userId == userId) with
  | none => throw ("Player " ++ userId ++ " not found.")
  | some playerIndex => do
    let player := gs.players.getD playerIndex emptyPlayer
    if player.restrictedDiscardCard = some (cardToDiscard.rank, cardToDiscard.suit) then
      throw "Cannot discard the card that was just picked up from the discard pile."
    else
      match player.hand.findIdx? (fun card =>
          card.rank == cardToDiscard.rank && card.suit == cardToDiscard.suit) with
      | none => throw ("Player " ++ userId ++ " does not have that card to discard.")
      | some cardIndex =>
        let newHand := player.hand.eraseIdx cardIndex
        let updatedPlayers := gs.players.set playerIndex
          { player with hand := newHand, hasTakenActionThisTurn := true }
        pure { gs with
          players := updatedPlayers,
          discardPile := gs.discardPile ++ [cardToDiscard],
          lastAction := some "discardCard" }

/-- `getCardNumericalRank` from `gameEngine.ts`: position in the rank order
Ace,2,3,4,5,6,7,J,Q,K.  `Int` so that `minRank - 1` never truncates. -/
def getCardNumericalRank : CardRank → Int
  | .Ace => 0 | .Two => 1 | .Three => 2 | .Four => 3 | .Five => 4
  | .Six => 5 | .Seven => 6 | .Jack => 7 | .Queen => 8 | .King => 9

/-- Adjacent ranks in a sorted list differ by exactly 1
(`isValidSpread` consecutive check). -/
def consecutiveByRank : List Card → Bool
  | a :: b :: rest =>
    (getCardNumericalRank b.rank - getCardNumericalRank a.rank == 1) &&
      consecutiveByRank (b :: rest)
  | _ => true

/-- Insert a card into a rank-sorted list after any equal-rank cards
(the insertion step of a stable ascending sort). -/
def insertByRank : List Card → Card → List Card
  | [], c => [c]
  | x :: xs, c =>
    if getCardNumericalRank c.rank < getCardNumericalRank x.rank then
      c :: x :: xs
    else
      x :: insertByRank xs c

/-- Sort by numerical rank: models JS `sort((a,b) => rankA - rankB)`, which is
a stable ascending sort (V8's `Array.sort` is stable); a left fold of
after-equals insertions is exactly that. -/
def sortByRank (cards : List Card) : List Card :=
  cards.foldl insertByRank []

/-- `isValidSpread` from `gameEngine.ts`: 3+ same-rank, or 3+ same-suit cards
whose ranks form a consecutive run. -/
def isValidSpread (cards : List Card) : Bool :=
  match cards with
  | [] => false
  | c0 :: _ =>
    if cards.length < 3 then false
    else if cards.all (fun card => card.rank == c0.rank) then true
    else if !(cards.all (fun card => card.suit == c0.suit)) then false
    else consecutiveByRank (sortByRank cards)

/-- `checkReem` from `gameEngine.ts`: exactly two spreads and an empty hand. -/
def checkReem (gs : IGameState) (userId : String) : Bool :=
  match gs.players.find? (fun p => p.userId == userId) with
  | none => false
  | some player => player.spreads.length == 2 && player.hand.length == 0

/-- Remove, for each requested card in order, its first (rank,suit) match from
the hand; `none` when some card is missing.  This is the source's count-map
availability check (step 2) fused with its splice removals (step 3) — both
compute multiset containment and first-occurrence removal. -/
def takeCards (hand : List Card) : List Card → Option (List Card)
  | [] => some hand
  | c :: rest =>
    match hand.findIdx? (fun h => h.rank == c.rank && h.suit == c.suit) with
    | some i => takeCards (hand.eraseIdx i) rest
    | none => none

/-- `playerSpreadCards` from `gameEngine.ts`.  A spread that produces a Reem
ends the round and settles wallets. -/
def playerSpreadCards (gs : IGameState) (userId : String) (cardsToSpread : List Card)
    (w : Wallets) : Except String (IGameState × Wallets) := do
  match gs.players.findIdx? (fun p => p.userId == userId) with
  | none => throw ("Player " ++ userId ++ " not found.")
  | some playerIndex => do
    let player := gs.players.getD playerIndex emptyPlayer
    if !(isValidSpread cardsToSpread) then
      throw "Invalid spread: Cards do not form a valid set or run."
    else
      match takeCards player.hand cardsToSpread with
      | none => throw ("Player " ++ userId ++ " does not have a spread card in hand.")
      | some newHand => do
        let updatedPlayer :=
          { player with
            hand := newHand, spreads := player.spreads ++ [cardsToSpread],
            hasTakenActionThisTurn := true }
        let updatedGameState : IGameState :=
          { gs with
            players := gs.players.set playerIndex updatedPlayer,
            lastAction := some "spread" }
        if checkReem updatedGameState userId then
          handleRoundEndPayouts
            { updatedGameState with
              status := .roundEnd, lastAction := some "reem",
              roundEndedBy := some .REEM, roundWinnerId := some userId,
              handScores := some (calculateAllHandScores
                (updatedGameState.players.map (fun p => (p.userId, p.hand)))) } w
        else
          pure (updatedGameState, w)

/-- `canHitSpread` from `gameEngine.ts`: same-rank melds take the rank with a
new suit; same-suit runs take the suit at exactly one below the minimum or one
above the maximum rank. -/
def canHitSpread (spread : List Card) (cardToAdd : Card) : Bool :=
  match spread with
  | [] => false
  | c0 :: _ =>
    if spread.all (fun c => c.rank == c0.rank) then
      cardToAdd.rank == c0.rank && !(spread.any (fun c => c.suit == cardToAdd.suit))
    else if spread.all (fun c => c.suit == c0.suit) then
      let sortedSpread := sortByRank spread
      let minRank := (sortedSpread.head?.map (fun c => getCardNumericalRank c.rank)).getD 0
      let maxRank := (sortedSpread.getLast?.map (fun c => getCardNumericalRank c.rank)).getD 0
      let cardToAddRank := getCardNumericalRank cardToAdd.rank
      cardToAdd.suit == c0.suit &&
        (cardToAddRank == minRank - 1 || cardToAddRank == maxRank + 1)
    else false

/-- `playerHitSpread` from `gameEngine.ts`.  The hitting player's update and
the target player's update are written into the players array sequentially:
when a player hits their own spread, the second write overwrites the first,
exactly as in the source. -/
def playerHitSpread (gs : IGameState) (hittingPlayerId : String) (cardToHitWith : Card)
    (targetPlayerId : String) (targetSpreadIndex : Nat) : Except String IGameState := do
  match gs.players.findIdx? (fun p => p.userId == hittingPlayerId) with
  | none => throw ("Hitting player " ++ hittingPlayerId ++ " not found.")
  | some hittingPlayerIndex => do
    let hittingPlayer := gs.players.getD hittingPlayerIndex emptyPlayer
    match gs.players.findIdx? (fun p => p.userId == targetPlayerId) with
    | none => throw ("Target player " ++ targetPlayerId ++ " not found.")
    | some targetPlayerIndex => do
      let targetPlayer := gs.players.getD targetPlayerIndex emptyPlayer
      match hittingPlayer.hand.findIdx? (fun card =>
          card.rank == cardToHitWith.rank && card.suit == cardToHitWith.suit) with
      | none => throw ("Player " ++ hittingPlayerId ++ " does not have that card to hit.")
      | some cardInHandIndex =>
        if targetSpreadIndex ≥ targetPlayer.spreads.length then
          throw ("Invalid target spread index for player " ++ targetPlayerId ++ ".")
        else
          let targetSpread := targetPlayer.spreads.getD targetSpreadIndex []
          if !(canHitSpread targetSpread cardToHitWith) then
            throw "Card cannot hit the target spread."
          else
            let updatedHittingHand := hittingPlayer.hand.eraseIdx cardInHandIndex
            let updatedTargetSpread := sortByRank (targetSpread ++ [cardToHitWith])
            let updatedTargetPlayerSpreads :=
              targetPlayer.spreads.set targetSpreadIndex updatedTargetSpread
            let newHitLockCounter :=
              targetPlayer.hitLockCounter + (if targetPlayer.isHitLocked then 1 else 2)
            let targetPlayer2 :=
              { targetPlayer with
                spreads := updatedTargetPlayerSpreads,
                isHitLocked := true, hitLockCounter := newHitLockCounter }
            let updatedHittingPlayer :=
              { hittingPlayer with hand := updatedHittingHand, hasTakenActionThisTurn := true }
            let updatedPlayers :=
              (gs.players.set hittingPlayerIndex updatedHittingPlayer).set
                targetPlayerIndex targetPlayer2
            pure { gs with players := updatedPlayers, lastAction := some "hit" }

/-- `playerDrop` from `gameEngine.ts`: only the current player, before any
action this turn and not hit-locked, may drop; the round ends REGULAR with the
dropper as winner and payouts run. -/
def playerDrop (gs : IGameState) (userId : String) (w : Wallets) :
    Except String (IGameState × Wallets) := do
  match gs.players.findIdx? (fun p => p.userId == userId) with
  | none => throw ("Player " ++ userId ++ " not found.")
  | some playerIndex => do
    let player := gs.players.getD playerIndex emptyPlayer
    if gs.currentPlayerIndex ≠ (playerIndex : Int) then
      throw ("It is not player " ++ userId ++ "'s turn to drop.")
    else if player.hasTakenActionThisTurn then
      throw ("Player " ++ userId ++ " cannot drop after taking an action this turn.")
    else if player.isHitLocked then
      throw ("Player " ++ userId ++ " cannot drop while hit-locked.")
    else
      handleRoundEndPayouts
        { gs with
          status := .roundEnd, lastAction := some "drop",
          roundEndedBy := some .REGULAR, roundWinnerId := some userId,
          handScores := some (calculateAllHandScores
            (gs.players.map (fun p => (p.userId, p.hand)))) } w

/-- An AI player's chosen action, from `aiPlayer.ts` `AIPlayerAction`. -/
inductive AIAction
  | draw
  | discard (card : Card)
  | spread (cards : List Card)
  | hit (card : Card) (targetPlayerId : String) (targetSpreadIndex : Nat)
  | drop
  | none
deriving DecidableEq, Repr

/-- All ordered pairs (i < j) of list elements, in source iteration order. -/
def indexPairs {α : Type} : List α → List (α × α)
  | [] => []
  | x :: xs => xs.map (fun y => (x, y)) ++ indexPairs xs

/-- All 3-element combinations `[hand[i], hand[j], hand[k]]`, `i < j < k`, in
the source's lexicographic loop order. -/
def combinations3 {α : Type} : List α → List (List α)
  | [] => []
  | x :: xs => (indexPairs xs).map (fun p => [x, p.1, p.2]) ++ combinations3 xs

/-- `findPossibleSpreads` from `aiPlayer.ts`: every valid 3-card combination
(the source stops at 3-card combinations). -/
def findPossibleSpreads (hand : List Card) : List (List Card) :=
  (combinations3 hand).filter isValidSpread

/-- `getAIPlayerAction` from `aiPlayer.ts`.  Priority: a spread that leaves a
second spread in hand (Reem setup); any first spread; the hit-search loop —
whose body is entirely commented out in the source, so it never produces a
hit; drop on a low hand; draw when the bot has not yet acted; finally a random
discard, whose `Math.floor(Math.random() * hand.length)` index is injected as
`randomIndex`.  The hand-minus-spread filter uses structural card equality
where the source compares object references; the two agree whenever the hand
holds no duplicate (suit, rank) pairs, which a single 40-card deck
guarantees. -/
def getAIPlayerAction (gs : IGameState) (aiPlayerId : String) (randomIndex : Nat) : AIAction :=
  match gs.players.find? (fun p => p.userId == aiPlayerId) with
  | Option.none => .none
  | some aiPlayer =>
    -- `players[currentPlayerIndex]` with an invalid index throws in JS;
    -- modelled as `.none`, unreachable from the states the claims use.
    match (if 0 ≤ gs.currentPlayerIndex then gs.players.get? gs.currentPlayerIndex.toNat
           else Option.none) with
    | Option.none => .none
    | some currentPlayer =>
      if currentPlayer.userId ≠ aiPlayerId then .none
      else
        let aiHand := aiPlayer.hand
        let possibleSpreads := findPossibleSpreads aiHand
        -- 1. Prioritise a spread enabling a second spread (potential Reem)
        match possibleSpreads.find? (fun spread =>
            !(findPossibleSpreads (aiHand.filter (fun card => !(spread.contains card)))).isEmpty) with
        | some spread => .spread spread
        | Option.none =>
          -- 2. Any first valid spread
          match possibleSpreads with
          | spread :: _ => .spread spread
          | [] =>
            -- 3. Hit search: the loop body is commented out in the source
            --    (`// TODO: Integrate actual canHitSpread logic`); nothing happens.
            -- 4. Drop on a low hand
            if !aiPlayer.isHitLocked && !aiPlayer.hasTakenActionThisTurn &&
                calculateHandValue aiHand ≤ 5 then
              .drop
            -- 5. Draw when the bot has not yet acted (`deck.length >= 0` is
            --    always true in the source)
            else if !aiPlayer.hasTakenActionThisTurn then
              .draw
            -- 6. Random discard
            else
              if h : 0 < aiHand.length then
                .discard (aiHand.get ⟨randomIndex % aiHand.length, Nat.mod_lt _ h⟩)
              else
                .none

/-- The dealer index the round-transition handler computes for the next round
(`sockets.ts` `handleRoundTransition`):
`(previousGameState.currentDealerIndex + 1) % Math.max(1, players.length)`.
`initializeGame` has no dealer parameter, so this value is computed and then
discarded by the call that starts the new round. -/
def nextDealerIndexCalc (prevDealerIndex : Nat) (numPlayers : Nat) : Nat :=
  (prevDealerIndex + 1) % (max 1 numPlayers)

/-- Total number of cards across deck, discard pile, hands and spreads
(the spec's card-conservation quantity). -/
def totalCardCount (gs : IGameState) : Nat :=
  gs.deck.length + gs.discardPile.length +
    (gs.players.map (fun p =>
      p.hand.length + (p.spreads.map List.length).sum)).sum

/-- The spec's hit-lock invariant: `isHitLocked ⇔ hitLockCounter > 0`. -/
def hitLockIff (gs : IGameState) : Prop :=
  ∀ p ∈ gs.players, p.isHitLocked = true ↔ p.hitLockCounter > 0

instance (gs : IGameState) : Decidable (hitLockIff gs) := by
  unfold hitLockIff
  exact List.decidableBAll _ _

/-- The forward half of the hit-lock invariant: a positive counter implies the
lock flag. -/
def hitLockForward (gs : IGameState) : Prop :=
  ∀ p ∈ gs.players, p.hitLockCounter > 0 → p.isHitLocked = true

instance (gs : IGameState) : Decidable (hitLockForward gs) := by
  unfold hitLockForward
  exact List.decidableBAll _ _

/-- Count of cards in a list sharing a card's (rank, suit) identity. -/
def countCard (hand : List Card) (c : Card) : Nat :=
  (hand.filter (fun h => h.rank == c.rank && h.suit == c.suit)).length

/-- Canonical value of a rank, per `RANKS_AND_VALUES`. -/
def rankValue : CardRank → Nat
  | .Ace => 1 | .Two => 2 | .Three => 3 | .Four => 4 | .Five => 5
  | .Six => 6 | .Seven => 7 | .Jack => 10 | .Queen => 10 | .King => 10

/-- Test fixture: a card with its canonical value. -/
def mkCard (s : CardSuit) (r : CardRank) : Card :=
  { suit := s, rank := r, value := rankValue r }

/-- Test fixture: a fresh human player. -/
def mkPlayer (uid : String) (hand : List Card) (spreads : List (List Card)) : Player :=
  { userId := uid, username := uid, hand := hand, isAI := false, isHitLocked := false,
    hitLockCounter := 0, spreads := spreads, hasTakenActionThisTurn := false,
    currentBuyIn := 0, restrictedDiscardCard := Option.none }

/-- Test fixture: a default in-progress game state with stake 10. -/
def baseState : IGameState :=
  { tableId := "t", currentDealerIndex := 0, players := [], deck := [],
    discardPile := [], turn := 1, currentPlayerIndex := 0, lastAction := Option.none,
    status := .inProgress, baseStake := 10, roundWins := [], pot := 0, lockedAntes := [],
    roundEndedBy := Option.none, roundWinnerId := Option.none, roundLoserId := Option.none,
    caughtDroppingPlayerId := Option.none, handScores := Option.none,
    payouts := Option.none }

/-- C1: for every round-end state with a winner, `calculatePayouts` dispatches
on `roundEndedBy`: REGULAR and DECK_EMPTY pay the winner the pot with no
penalties; REEM pays pot + baseStake·|losers| and fines each loser baseStake;
AUTO_TRIPLE pays pot + 3·baseStake·|losers| and fines each loser 3·baseStake;
CAUGHT_DROP (with a recorded caught dropper) pays pot + baseStake and fines
only the caught dropper baseStake — losers being the seated players other
than the winner. -/
theorem calculatePayouts_dispatch (gs : IGameState) (w : String)
    (hstatus : gs.status = GameStatus.roundEnd) (hw : gs.roundWinnerId = some w) :
    ((gs.roundEndedBy = some .REGULAR ∨ gs.roundEndedBy = some .DECK_EMPTY) →
      calculatePayouts gs = { winnerPayout := gs.pot, penalties := [] }) ∧
    (gs.roundEndedBy = some .REEM →
      calculatePayouts gs =
        { winnerPayout := gs.pot +
            gs.baseStake * (gs.players.filter (fun p => p.userId ≠ w)).length,
          penalties := (gs.players.filter (fun p => p.userId ≠ w)).map
            (fun l => (l.userId, gs.baseStake)) }) ∧
    (gs.roundEndedBy = some .AUTO_TRIPLE →
      calculatePayouts gs =
        { winnerPayout := gs.pot +
            (gs.baseStake * 3) * (gs.players.filter (fun p => p.userId ≠ w)).length,
          penalties := (gs.players.filter (fun p => p.userId ≠ w)).map
            (fun l => (l.userId, gs.baseStake * 3)) }) ∧
    (∀ caught, gs.roundEndedBy = some .CAUGHT_DROP →
      gs.caughtDroppingPlayerId = some caught →
      calculatePayouts gs =
        { winnerPayout := gs.pot + gs.baseStake,
          penalties := [(caught, gs.baseStake)] }) := by
  refine ⟨?_, ?_, ?_, ?_⟩
  · rintro (hr | hr) <;> simp [calculatePayouts, hw, hr]
  · intro hr
    simp [calculatePayouts, hw, hr]
  · intro hr
    simp [calculatePayouts, hw, hr]
  · intro caught hr hc
    simp [calculatePayouts, hw, hr, hc]

/-- Witness for C1 at a concrete REEM round: pot 20, stake 10, winner A,
one loser B. -/
theorem calculatePayouts_dispatch_witness :
    calculatePayouts
      { baseState with
        players := [mkPlayer "A" [] [], mkPlayer "B" [] []],
        status := .roundEnd, pot := 20, roundEndedBy := some .REEM,
        roundWinnerId := some "A" } =
      { winnerPayout := 30, penalties := [("B", 10)] } := by
  have h := (calculatePayouts_dispatch
    { baseState with
      players := [mkPlayer "A" [] [], mkPlayer "B" [] []],
      status := .roundEnd, pot := 20, roundEndedBy := some .REEM,
      roundWinnerId := some "A" } "A" rfl rfl).2.1 rfl
  simpa [baseState, mkPlayer] using h

/-- Scenario deck for the auto-triple test: dealt round-robin to seats A, B
and the bot C, seat A receives A♥ A♦ 2♥ 3♥ 4♥ (hand value 11). -/
def autoTripleDeck : List Card :=
  [mkCard .Hearts .Ace, mkCard .Hearts .Five, mkCard .Hearts .King,
   mkCard .Diamonds .Ace, mkCard .Hearts .Six, mkCard .Diamonds .Two,
   mkCard .Hearts .Two, mkCard .Hearts .Seven, mkCard .Diamonds .Three,
   mkCard .Hearts .Three, mkCard .Hearts .Jack, mkCard .Diamonds .Four,
   mkCard .Hearts .Four, mkCard .Hearts .Queen, mkCard .Diamonds .Five,
   mkCard .Diamonds .Six, mkCard .Diamonds .Seven, mkCard .Diamonds .Jack,
   mkCard .Diamonds .Queen, mkCard .Diamonds .King,
   mkCard .Clubs .Ace, mkCard .Clubs .Two, mkCard .Clubs .Three,
   mkCard .Clubs .Four, mkCard .Clubs .Five, mkCard .Clubs .Six,
   mkCard .Clubs .Seven, mkCard .Clubs .Jack, mkCard .Clubs .Queen,
   mkCard .Clubs .King,
   mkCard .Spades .Ace, mkCard .Spades .Two, mkCard .Spades .Three,
   mkCard .Spades .Four, mkCard .Spades .Five, mkCard .Spades .Six,
   mkCard .Spades .Seven, mkCard .Spades .Jack, mkCard .Spades .Queen,
   mkCard .Spades .King]

/-- Scenario seats: humans A and B, bot C. -/
def autoTripleSeats : List SeatedPlayer :=
  [{ userId := "A", username := "A", isAI := false },
   { userId := "B", username := "B", isAI := false },
   { userId := "C", username := "C", isAI := true }]

/-- Scenario table: stake 10. -/
def autoTripleTable : TableInfo := { tableId := "t", stake := 10 }

/-- Scenario wallets: the two humans hold 100 each; the bot has no wallet. -/
def autoTripleWallets : Wallets := [("A", 100), ("B", 100)]

/-- C2 counterexample: in the claimed scenario (stake 10, humans A and B with
100 each, one bot, A dealt hand value 11) the round does end by AUTO_TRIPLE
with winner A, but A's wallet finishes at 180, not the claimed 160: the pot
after ante collection is 30 (the bot's ante inflates it), so the winner
payout is 30 + 30×2 = 90, and 100 − 10 + 90 = 180. -/
theorem autoTriple_wallet_counterexample :
    (initializeGame autoTripleDeck autoTripleTable autoTripleSeats autoTripleWallets).map
      (fun r => (r.1.roundEndedBy, r.1.roundWinnerId, getEntry r.2 "A")) =
      .ok (some .AUTO_TRIPLE, some "A", some 180) ∧ (180 : Int) ≠ 160 := by
  constructor
  · rfl
  · decide

/-- C2 amended: as the claim states except that A's final balance is 180
(= 100 − 10 ante + pot 30 + 30×2 penalties); B's balance is 60 as claimed. -/
theorem autoTriple_wallet_amended :
    (initializeGame autoTripleDeck autoTripleTable autoTripleSeats autoTripleWallets).map
      (fun r => (r.1.roundEndedBy, r.1.roundWinnerId, r.1.pot,
        getEntry r.2 "A", getEntry r.2 "B")) =
      .ok (some .AUTO_TRIPLE, some "A", 30, some 180, some 60) := by
  rfl

/-- Inversion for `Except` bind: a successful bind splits into a successful
first step and a successful continuation. -/
theorem bindOk {β γ : Type} {x : Except String β} {f : β → Except String γ} {c : γ}
    (h : (x >>= f) = .ok c) : ∃ b, x = .ok b ∧ f b = .ok c := by
  cases x with
  | error e => cases h
  | ok b => exact ⟨b, rfl, h⟩

/-- `handleBuyIn` never changes the dealer index. -/
theorem handleBuyIn_dealer {gs : IGameState} {w : Wallets} {pr : IGameState × Wallets}
    (h : handleBuyIn gs w = .ok pr) : pr.1.currentDealerIndex = gs.currentDealerIndex := by
  unfold handleBuyIn at h
  obtain ⟨res, _, hpure⟩ := bindOk h
  cases hpure
  rfl

/-- `handleRoundEndPayouts` never changes the dealer index. -/
theorem handleRoundEndPayouts_dealer {gs : IGameState} {w : Wallets}
    {pr : IGameState × Wallets} (h : handleRoundEndPayouts gs w = .ok pr) :
    pr.1.currentDealerIndex = gs.currentDealerIndex := by
  unfold handleRoundEndPayouts at h
  split at h
  · cases h
    rfl
  · obtain ⟨w2, _, hpure⟩ := bindOk h
    cases hpure
    rfl

/-- C9: the round-transition handler computes the rotated dealer index
`(prev + 1) % max 1 |seats|` and passes it to `initializeGame`, but
`initializeGame` takes no dealer argument and unconditionally writes dealer
index 0 into the new round's state; with previous dealer 0 and two seats the
handler computes 1, yet every state `initializeGame` returns carries 0. -/
theorem initializeGame_ignores_dealer_rotation :
    (∀ shuffledDeck table seats w gs w2,
      initializeGame shuffledDeck table seats w = .ok (gs, w2) →
      gs.currentDealerIndex = 0) ∧ nextDealerIndexCalc 0 2 = 1 := by
  constructor
  · intro shuffledDeck table seats w gs w2 h
    unfold initializeGame at h
    obtain ⟨dealt, _, h⟩ := bindOk h
    obtain ⟨bought, hbuy, h⟩ := bindOk h
    have hb := handleBuyIn_dealer hbuy
    split at h
    · split at h
      · have hd := handleRoundEndPayouts_dealer h
        simpa using hd
      · cases h
        simpa using hb
    · cases h
      simpa using hb
  · decide

/-- Witness for C9 at the auto-triple scenario inputs: the state
`initializeGame` returns carries dealer index 0 while the handler's
computation yields 1. -/
theorem initializeGame_ignores_dealer_rotation_witness :
    (initializeGame autoTripleDeck autoTripleTable autoTripleSeats autoTripleWallets).map
      (fun r => r.1.currentDealerIndex) = .ok 0 ∧ nextDealerIndexCalc 0 2 = 1 := by
  constructor
  · cases h : initializeGame autoTripleDeck autoTripleTable autoTripleSeats autoTripleWallets with
    | error e =>
      have hok : (initializeGame autoTripleDeck autoTripleTable autoTripleSeats
          autoTripleWallets).isOk = true := rfl
      rw [h] at hok
      cases hok
    | ok r =>
      have hd := initializeGame_ignores_dealer_rotation.1 autoTripleDeck autoTripleTable
        autoTripleSeats autoTripleWallets r.1 r.2 (by rw [h])
      simp [Except.map, h, hd]
  · exact initializeGame_ignores_dealer_rotation.2

/-- The 31 cards left in the deck for the hit fixtures: everything except the
four kings and A♥–5♥. -/
def hitFixtureDeck : List Card :=
  [mkCard .Hearts .Six, mkCard .Hearts .Seven, mkCard .Hearts .Jack, mkCard .Hearts .Queen,
   mkCard .Diamonds .Ace, mkCard .Diamonds .Two, mkCard .Diamonds .Three,
   mkCard .Diamonds .Four, mkCard .Diamonds .Five, mkCard .Diamonds .Six,
   mkCard .Diamonds .Seven, mkCard .Diamonds .Jack, mkCard .Diamonds .Queen,
   mkCard .Clubs .Ace, mkCard .Clubs .Two, mkCard .Clubs .Three, mkCard .Clubs .Four,
   mkCard .Clubs .Five, mkCard .Clubs .Six, mkCard .Clubs .Seven, mkCard .Clubs .Jack,
   mkCard .Clubs .Queen,
   mkCard .Spades .Ace, mkCard .Spades .Two, mkCard .Spades .Three, mkCard .Spades .Four,
   mkCard .Spades .Five, mkCard .Spades .Six, mkCard .Spades .Seven, mkCard .Spades .Jack,
   mkCard .Spades .Queen]

/-- A state in which player P0 holds K♠ and owns the spread K♥ K♦ K♣; all 40
cards are accounted for exactly once. -/
def selfHitState : IGameState :=
  { baseState with
    players :=
      [mkPlayer "P0" [mkCard .Spades .King]
        [[mkCard .Hearts .King, mkCard .Diamonds .King, mkCard .Clubs .King]],
       mkPlayer "P1"
        [mkCard .Hearts .Ace, mkCard .Hearts .Two, mkCard .Hearts .Three,
         mkCard .Hearts .Four, mkCard .Hearts .Five] []],
    deck := hitFixtureDeck }

/-- C3 failing run: the state holds exactly 40 distinct cards, P0 hitting
their own spread with K♠ succeeds — and afterwards the state holds 41 cards,
with K♠ counted once in P0's hand AND once in P0's spread: the sequential
writes into the players array overwrite the hand update when hitter and
target coincide. -/
theorem playerHitSpread_self_hit_duplicates_card :
    totalCardCount selfHitState = 40 ∧
    (playerHitSpread selfHitState "P0" (mkCard .Spades .King) "P0" 0).map
      (fun s => (totalCardCount s,
        s.players.map (fun p => countCard p.hand (mkCard .Spades .King)),
        s.players.map (fun p => p.spreads.map
          (fun sp => countCard sp (mkCard .Spades .King)))))
      = .ok (41, [1, 0], [[1], []]) := by
  exact ⟨rfl, rfl⟩

/-- A state in which P0 holds K♠ and P1 owns the spread K♥ K♦ K♣ and is not
hit-locked. -/
def hitLockS0 : IGameState :=
  { baseState with
    players :=
      [mkPlayer "P0" [mkCard .Spades .King] [],
       mkPlayer "P1"
        [mkCard .Hearts .Ace, mkCard .Hearts .Two, mkCard .Hearts .Three,
         mkCard .Hearts .Four, mkCard .Hearts .Five]
        [[mkCard .Hearts .King, mkCard .Diamonds .King, mkCard .Clubs .King]]],
    deck := hitFixtureDeck }

/-- The state after P0 hits P1's spread with K♠ (the hit succeeds, see the
theorems below). -/
def hitLockAfterHit : IGameState :=
  ((playerHitSpread hitLockS0 "P0" (mkCard .Spades .King) "P1" 0).toOption).getD hitLockS0

/-- C4 counterexample: hitting P1 succeeds and the invariant
`isHitLocked ⇔ hitLockCounter > 0` holds right after the hit, but after two
`nextTurn` rotations P1 has `isHitLocked = true` with `hitLockCounter = 0`:
`nextTurn` computes the new flag from the counter before its decrement. -/
theorem nextTurn_hitLock_iff_counterexample :
    (playerHitSpread hitLockS0 "P0" (mkCard .Spades .King) "P1" 0).isOk = true ∧
    hitLockIff hitLockAfterHit ∧
    ¬ hitLockIff (nextTurn (nextTurn hitLockAfterHit)) ∧
    (nextTurn (nextTurn hitLockAfterHit)).players.map
      (fun p => (p.isHitLocked, p.hitLockCounter)) = [(false, 0), (true, 0)] := by
  refine ⟨rfl, by decide, by decide, rfl⟩

/-- `getD` of an in-range index is a member of the list. -/
theorem getD_mem_of_lt {α : Type} {l : List α} {i : Nat} {d : α} (h : i < l.length) :
    l.getD i d ∈ l := by
  rw [List.getD_eq_getElem?_getD, List.getElem?_eq_getElem h]
  exact List.getElem_mem h

/-- C4 amended: the forward half of the invariant holds after every
transition that touches the lock fields — `nextTurn` establishes
`hitLockCounter > 0 → isHitLocked` unconditionally, and `playerHitSpread`
preserves the full `isHitLocked ⇔ hitLockCounter > 0` invariant; the backward
half fails after `nextTurn` (see the counterexample): for one rotation a
player can be `isHitLocked` with counter 0. -/
theorem hitLock_forward_invariant :
    (∀ gs, hitLockForward (nextTurn gs)) ∧
    (∀ gs hittingPlayerId cardToHitWith targetPlayerId targetSpreadIndex s2,
      hitLockIff gs →
      playerHitSpread gs hittingPlayerId cardToHitWith targetPlayerId
        targetSpreadIndex = .ok s2 →
      hitLockIff s2) := by
  constructor
  · intro gs p hp hc
    unfold nextTurn at hp
    simp only [List.mem_map] at hp
    obtain ⟨q, _, rfl⟩ := hp
    simp only at hc ⊢
    simp only [decide_eq_true_eq]
    omega
  · intro gs hid c tid idx s2 hinv h
    unfold playerHitSpread at h
    split at h
    · cases h
    · rename_i hIdx hfindH
      split at h
      · cases h
      · rename_i tIdx hfindT
        dsimp only at h
        split at h
        · cases h
        · rename_i ci hfindC
          split at h
          · cases h
          · rename_i hidxlt
            split at h
            · cases h
            · cases h
              intro p hp
              rcases List.mem_or_eq_of_mem_set hp with hp1 | rfl
              · rcases List.mem_or_eq_of_mem_set hp1 with hp2 | rfl
                · exact hinv p hp2
                · have hlt : hIdx < gs.players.length := by
                    rw [List.findIdx?_eq_some_iff_findIdx_eq] at hfindH
                    exact hfindH.1
                  have hm := hinv (gs.players.getD hIdx emptyPlayer) (getD_mem_of_lt hlt)
                  exact hm
              · constructor
                · intro _
                  simp only
                  split <;> omega
                · intro _
                  rfl

/-- Witness for C4's amended theorem: the forward invariant after a rotation
of the concrete hit fixture, and preservation of the full invariant through
the concrete successful hit. -/
theorem hitLock_forward_invariant_witness :
    hitLockForward (nextTurn hitLockS0) ∧ hitLockIff hitLockAfterHit := by
  exact ⟨hitLock_forward_invariant.1 hitLockS0,
    hitLock_forward_invariant.2 hitLockS0 "P0" (mkCard .Spades .King) "P1" 0
      hitLockAfterHit (by decide) rfl⟩

/-- `findIdx?` only depends on the predicate's value at each position. -/
theorem findIdx?_congr {α β : Type} (p : α → Bool) (q : β → Bool) :
    ∀ (l : List α) (l2 : List β),
      (∀ i, (l.get? i).map p = (l2.get? i).map q) →
      l.findIdx? p = l2.findIdx? q
  | [], [], _ => rfl
  | [], y :: ys, h => by
    have h0 := h 0
    simp at h0
  | x :: xs, [], h => by
    have h0 := h 0
    simp at h0
  | x :: xs, y :: ys, h => by
    have h0 := h 0
    simp only [List.get?, Option.map_some] at h0
    have hpq : p x = q y := Option.some.inj h0
    have ih := findIdx?_congr p q xs ys (fun i => h (i + 1))
    rw [List.findIdx?_cons, List.findIdx?_cons, hpq, List.findIdx?_succ,
      List.findIdx?_succ, ih]

/-- Setting a position to a player with the same userId leaves the
userId-at-position view unchanged. -/
theorem userIdAt_set {l : List Player} {j : Nat} {a : Player}
    (hu : (l.get? j).map Player.userId = some a.userId) :
    ∀ i, ((l.set j a).get? i).map Player.userId = (l.get? i).map Player.userId := by
  intro i
  by_cases hij : j = i
  · subst hij
    have hjl : j < l.length := by
      cases hg : l.get? j with
      | some v => exact (List.get?_eq_some.mp hg).1
      | none => rw [hg] at hu; cases hu
    simp only [List.get?_eq_getElem?] at hu ⊢
    simp [List.getElem?_set, hjl, hu]
    rw [List.getElem?_eq_getElem hjl] at hu
    simp only [Option.map] at hu
    exact (Option.some.inj hu).symm
  · rw [List.get?_eq_getElem?, List.getElem?_set, if_neg hij, ← List.get?_eq_getElem?]

/-- The per-player update `nextTurn` applies. -/
def nextTurnPlayer (player : Player) : Player :=
  { player with
    hasTakenActionThisTurn := false,
    hitLockCounter := player.hitLockCounter - 1,
    isHitLocked := player.hitLockCounter > 0,
    restrictedDiscardCard := Option.none }

/-- `nextTurn` rewrites the players array by mapping `nextTurnPlayer`. -/
theorem nextTurn_players (gs : IGameState) :
    (nextTurn gs).players = gs.players.map nextTurnPlayer := rfl

/-- The players at each position after `nextTurn`. -/
theorem nextTurn_get? (gs : IGameState) (i : Nat) :
    (nextTurn gs).players.get? i = (gs.players.get? i).map nextTurnPlayer := by
  rw [nextTurn_players]
  simp [List.get?_eq_getElem?]

/-- `nextTurn` preserves the userId at each position. -/
theorem nextTurn_userIdAt (gs : IGameState) (i : Nat) :
    ((nextTurn gs).players.get? i).map Player.userId =
      (gs.players.get? i).map Player.userId := by
  rw [nextTurn_get?, Option.map_map]
  rfl

/-- Rephrase a userId-level pointwise equality as one for the
`(·.userId == tid)` predicate, then transport `findIdx?`. -/
theorem findIdx?_userId_congr {l l2 : List Player} (tid : String)
    (h : ∀ i, (l.get? i).map Player.userId = (l2.get? i).map Player.userId) :
    l.findIdx? (fun p => p.userId == tid) = l2.findIdx? (fun p => p.userId == tid) := by
  apply findIdx?_congr
  intro i
  have e1 : (fun (p : Player) => p.userId == tid) =
      ((fun u => u == tid) ∘ Player.userId) := rfl
  rw [e1, ← Option.map_map, ← Option.map_map, h i]

/-- A player drop is rejected (throws) whenever the acting player is
hit-locked, regardless of whose turn it is. -/
theorem playerDrop_locked_error {s : IGameState} {tid : String} {tIdx : Nat} {p : Player}
    (w : Wallets)
    (hfind : s.players.findIdx? (fun q => q.userId == tid) = some tIdx)
    (hget : s.players.get? tIdx = some p)
    (hlocked : p.isHitLocked = true) :
    (playerDrop s tid w).isOk = false := by
  have hgetD : s.players.getD tIdx emptyPlayer = p := by
    rw [List.getD_eq_getElem?_getD, ← List.get?_eq_getElem?, hget]
    rfl
  unfold playerDrop
  rw [hfind]
  dsimp only
  rw [hgetD]
  split
  · rfl
  · split
    · rfl
    · rfl

/-- `handleRoundEndPayouts` succeeds whenever the round has a winner and the
payout carries no penalties (e.g. a REGULAR drop). -/
theorem handleRoundEndPayouts_ok_of_no_penalties {gs : IGameState} (w : Wallets)
    (hst : gs.status = .roundEnd) (wid : String) (hwid : gs.roundWinnerId = some wid)
    (hpen : (calculatePayouts gs).penalties = []) :
    (handleRoundEndPayouts gs w).isOk = true := by
  unfold handleRoundEndPayouts
  rw [if_neg (by simp [hst])]
  dsimp only
  unfold settleWallets
  rw [hwid, hpen]
  rfl

/-- A player drop succeeds when it is the player's turn, they have not acted
this turn, and they are not hit-locked. -/
theorem playerDrop_unlocked_ok {s : IGameState} {tid : String} {tIdx : Nat} {p : Player}
    (w : Wallets)
    (hfind : s.players.findIdx? (fun q => q.userId == tid) = some tIdx)
    (hget : s.players.get? tIdx = some p)
    (hidx : s.currentPlayerIndex = (tIdx : Int))
    (hact : p.hasTakenActionThisTurn = false)
    (hlocked : p.isHitLocked = false) :
    (playerDrop s tid w).isOk = true := by
  have hgetD : s.players.getD tIdx emptyPlayer = p := by
    rw [List.getD_eq_getElem?_getD, ← List.get?_eq_getElem?, hget]
    rfl
  unfold playerDrop
  rw [hfind]
  dsimp only
  rw [hgetD, hidx, if_neg (by simp), hact, hlocked]
  simp only [Bool.false_eq_true, if_false]
  exact handleRoundEndPayouts_ok_of_no_penalties w rfl tid rfl
    (by simp [calculatePayouts])

/-- `get?` at an in-range index returns the `getD` value. -/
theorem get?_getD {α : Type} {l : List α} {i : Nat} (d : α) (h : i < l.length) :
    l.get? i = some (l.getD i d) := by
  rw [List.getD_eq_getElem?_getD, List.get?_eq_getElem?, List.getElem?_eq_getElem h]
  rfl

/-- After a hit leaves the target at seat `tIdx` locked with counter 2, the
next two rotations keep them locked (any drop they attempt throws), and the
third clears both fields so a drop on their turn succeeds. -/
theorem lockedTwo_three_rotations (s : IGameState) (tid : String) (tIdx : Nat)
    (q : Player) (w : Wallets)
    (hfind : s.players.findIdx? (fun p => p.userId == tid) = some tIdx)
    (hq : s.players.get? tIdx = some q)
    (hqc : q.hitLockCounter = 2) :
    ((playerDrop (nextTurn s) tid w).isOk = false) ∧
    ((playerDrop (nextTurn (nextTurn s)) tid w).isOk = false) ∧
    (∀ p4, (nextTurn (nextTurn (nextTurn s))).players.get? tIdx = some p4 →
      p4.isHitLocked = false ∧ p4.hitLockCounter = 0) ∧
    ((nextTurn (nextTurn (nextTurn s))).currentPlayerIndex = (tIdx : Int) →
      (playerDrop (nextTurn (nextTurn (nextTurn s))) tid w).isOk = true) := by
  have hfind1 : (nextTurn s).players.findIdx? (fun p => p.userId == tid) = some tIdx :=
    (findIdx?_userId_congr tid (nextTurn_userIdAt s)).trans hfind
  have hfind2 : (nextTurn (nextTurn s)).players.findIdx?
      (fun p => p.userId == tid) = some tIdx :=
    (findIdx?_userId_congr tid (nextTurn_userIdAt (nextTurn s))).trans hfind1
  have hfind3 : (nextTurn (nextTurn (nextTurn s))).players.findIdx?
      (fun p => p.userId == tid) = some tIdx :=
    (findIdx?_userId_congr tid (nextTurn_userIdAt (nextTurn (nextTurn s)))).trans hfind2
  have hq1 : (nextTurn s).players.get? tIdx = some (nextTurnPlayer q) := by
    rw [nextTurn_get?, hq]
    rfl
  have hq2 : (nextTurn (nextTurn s)).players.get? tIdx =
      some (nextTurnPlayer (nextTurnPlayer q)) := by
    rw [nextTurn_get?, hq1]
    rfl
  have hq3 : (nextTurn (nextTurn (nextTurn s))).players.get? tIdx =
      some (nextTurnPlayer (nextTurnPlayer (nextTurnPlayer q))) := by
    rw [nextTurn_get?, hq2]
    rfl
  have hl1 : (nextTurnPlayer q).isHitLocked = true := by
    simp only [nextTurnPlayer, decide_eq_true_eq]
    omega
  have hc1 : (nextTurnPlayer q).hitLockCounter = 1 := by
    simp only [nextTurnPlayer]
    omega
  have hl2 : (nextTurnPlayer (nextTurnPlayer q)).isHitLocked = true := by
    simp only [nextTurnPlayer, decide_eq_true_eq]
    omega
  have hc2 : (nextTurnPlayer (nextTurnPlayer q)).hitLockCounter = 0 := by
    simp only [nextTurnPlayer]
    omega
  have hl3 : (nextTurnPlayer (nextTurnPlayer (nextTurnPlayer q))).isHitLocked = false := by
    simp only [nextTurnPlayer, decide_eq_false_iff_not]
    omega
  have hc3 : (nextTurnPlayer (nextTurnPlayer (nextTurnPlayer q))).hitLockCounter = 0 := by
    simp only [nextTurnPlayer]
    omega
  refine ⟨playerDrop_locked_error w hfind1 hq1 hl1,
    playerDrop_locked_error w hfind2 hq2 hl2, ?_, ?_⟩
  · intro p4 hp4
    rw [hq3] at hp4
    cases Option.some.inj hp4
    exact ⟨hl3, hc3⟩
  · intro hturn
    exact playerDrop_unlocked_ok w hfind3 hq3 hturn rfl hl3

/-- C5: hitting an unlocked target's spread locks them out of dropping for
exactly two rotations.  If the target `tp` (seat `tIdx`) has `hitLockCounter
= 0` and is not locked, and a hit on them succeeds producing `s1`, then after
one and after two `nextTurn` rotations the target is hit-locked and every
drop they attempt is rejected; after the third rotation the lock and counter
are both cleared, and a drop — when it is their turn, with no action taken
that turn — succeeds. -/
theorem hitLock_blocks_drop_two_rotations
    (gs : IGameState) (hid tid : String) (c : Card) (idx : Nat) (s1 : IGameState)
    (tIdx : Nat) (tp : Player) (w : Wallets)
    (hget : gs.players.get? tIdx = some tp)
    (hfindT : gs.players.findIdx? (fun p => p.userId == tid) = some tIdx)
    (hlock : tp.isHitLocked = false)
    (hcnt : tp.hitLockCounter = 0)
    (hhit : playerHitSpread gs hid c tid idx = .ok s1) :
    ((playerDrop (nextTurn s1) tid w).isOk = false) ∧
    ((playerDrop (nextTurn (nextTurn s1)) tid w).isOk = false) ∧
    (∀ p4, (nextTurn (nextTurn (nextTurn s1))).players.get? tIdx = some p4 →
      p4.isHitLocked = false ∧ p4.hitLockCounter = 0) ∧
    ((nextTurn (nextTurn (nextTurn s1))).currentPlayerIndex = (tIdx : Int) →
      (playerDrop (nextTurn (nextTurn (nextTurn s1))) tid w).isOk = true) := by
  have hlt : tIdx < gs.players.length := by
    rw [List.findIdx?_eq_some_iff_findIdx_eq] at hfindT
    exact hfindT.1
  unfold playerHitSpread at hhit
  split at hhit
  · cases hhit
  · rename_i hIdx hfindH
    have hltH : hIdx < gs.players.length := by
      rw [List.findIdx?_eq_some_iff_findIdx_eq] at hfindH
      exact hfindH.1
    split at hhit
    · cases hhit
    · rename_i tIdxF hfindTF
      have htf : tIdx = tIdxF := by
        rw [hfindT] at hfindTF
        exact Option.some.inj hfindTF
      subst htf
      dsimp only at hhit
      split at hhit
      · cases hhit
      · rename_i ci hfindC
        split at hhit
        · cases hhit
        · rename_i hidxlt
          split at hhit
          · cases hhit
          · cases hhit
            have hgetD_T : gs.players.getD tIdx emptyPlayer = tp := by
              rw [List.getD_eq_getElem?_getD, ← List.get?_eq_getElem?, hget]
              rfl
            have hgetH : gs.players.get? hIdx =
                some (gs.players.getD hIdx emptyPlayer) :=
              get?_getD emptyPlayer hltH
            -- names for the two written player records
            set hp2 : Player :=
              { gs.players.getD hIdx emptyPlayer with
                hand := (gs.players.getD hIdx emptyPlayer).hand.eraseIdx ci,
                hasTakenActionThisTurn := true } with hhp2
            set tp2 : Player :=
              { gs.players.getD tIdx emptyPlayer with
                spreads := (gs.players.getD tIdx emptyPlayer).spreads.set idx
                  (sortByRank
                    ((gs.players.getD tIdx emptyPlayer).spreads.getD idx [] ++ [c])),
                isHitLocked := true,
                hitLockCounter := (gs.players.getD tIdx emptyPlayer).hitLockCounter +
                  if (gs.players.getD tIdx emptyPlayer).isHitLocked = true then 1 else 2 }
              with htp2
            have step1 : ∀ i,
                (((gs.players.set hIdx hp2).get? i)).map Player.userId =
                (gs.players.get? i).map Player.userId := by
              apply userIdAt_set
              rw [hgetH]
              rfl
            have step2 : ∀ i,
                ((((gs.players.set hIdx hp2).set tIdx tp2).get? i)).map Player.userId =
                ((gs.players.set hIdx hp2).get? i).map Player.userId := by
              apply userIdAt_set
              rw [step1 tIdx, hget]
              show some tp.userId = some tp2.userId
              rw [htp2, hgetD_T]
            have huid : ∀ i,
                ((((gs.players.set hIdx hp2).set tIdx tp2).get? i)).map Player.userId =
                (gs.players.get? i).map Player.userId :=
              fun i => (step2 i).trans (step1 i)
            have hP1 : ((gs.players.set hIdx hp2).set tIdx tp2).get? tIdx = some tp2 := by
              rw [List.get?_eq_getElem?, List.getElem?_set, if_pos rfl]
              rw [if_pos (by simpa using hlt)]
            have htp2c : tp2.hitLockCounter = 2 := by
              rw [htp2]
              show (gs.players.getD tIdx emptyPlayer).hitLockCounter +
                (if (gs.players.getD tIdx emptyPlayer).isHitLocked = true then 1 else 2) = 2
              rw [hgetD_T, hcnt, hlock]
              rfl
            exact lockedTwo_three_rotations _ tid tIdx tp2 w
              ((findIdx?_userId_congr tid huid).trans hfindT) hP1 htp2c

/-- Witness for C5 on the concrete two-player fixture: P0 hits P1 (seat 1,
unlocked, counter 0); P1's drops are rejected after one and two rotations and
succeed after three. -/
theorem hitLock_blocks_drop_two_rotations_witness :
    ((playerDrop (nextTurn hitLockAfterHit) "P1" []).isOk = false) ∧
    ((playerDrop (nextTurn (nextTurn hitLockAfterHit)) "P1" []).isOk = false) ∧
    (∀ p4, (nextTurn (nextTurn (nextTurn hitLockAfterHit))).players.get? 1 = some p4 →
      p4.isHitLocked = false ∧ p4.hitLockCounter = 0) ∧
    ((nextTurn (nextTurn (nextTurn hitLockAfterHit))).currentPlayerIndex = (1 : Int) →
      (playerDrop (nextTurn (nextTurn (nextTurn hitLockAfterHit))) "P1" []).isOk = true) :=
  hitLock_blocks_drop_two_rotations hitLockS0 "P0" "P1" (mkCard .Spades .King) 0
    hitLockAfterHit 1
    (mkPlayer "P1"
      [mkCard .Hearts .Ace, mkCard .Hearts .Two, mkCard .Hearts .Three,
       mkCard .Hearts .Four, mkCard .Hearts .Five]
      [[mkCard .Hearts .King, mkCard .Diamonds .King, mkCard .Clubs .King]])
    [] rfl rfl rfl rfl rfl

/-- A successful `Except` has a value. -/
theorem isOk_exists {α : Type} {x : Except String α} (h : x.isOk = true) :
    ∃ v, x = .ok v := by
  cases x with
  | error e => cases h
  | ok v => exact ⟨v, rfl⟩

/-- `handleRoundEndPayouts` only fills in `payouts`: status, end reason and
winner are unchanged. -/
theorem handleRoundEndPayouts_fields {gs : IGameState} {w : Wallets}
    {pr : IGameState × Wallets} (h : handleRoundEndPayouts gs w = .ok pr) :
    pr.1.status = gs.status ∧ pr.1.roundEndedBy = gs.roundEndedBy ∧
      pr.1.roundWinnerId = gs.roundWinnerId := by
  unfold handleRoundEndPayouts at h
  split at h
  · cases h
    exact ⟨rfl, rfl, rfl⟩
  · obtain ⟨w2, _, hpure⟩ := bindOk h
    cases hpure
    exact ⟨rfl, rfl, rfl⟩

/-- Characterisation of the running-lowest fold with a `some` accumulator:
either no player beats the running lowest and the accumulator survives, or
the result is the first player attaining the strict minimum. -/
theorem foldMin_spec (ps : List Player) : ∀ (m : Nat) (wid : String),
    (ps.foldl lowestAcc (some m, wid) = (some m, wid) ∧
      ∀ p ∈ ps, m ≤ calculateHandValue p.hand) ∨
    (∃ i pi, ps.get? i = some pi ∧
      ps.foldl lowestAcc (some m, wid) =
        (some (calculateHandValue pi.hand), pi.userId) ∧
      calculateHandValue pi.hand < m ∧
      (∀ j pj, ps.get? j = some pj →
        calculateHandValue pi.hand ≤ calculateHandValue pj.hand) ∧
      (∀ j pj, ps.get? j = some pj → j < i →
        calculateHandValue pi.hand < calculateHandValue pj.hand)) := by
  induction ps with
  | nil =>
    intro m wid
    exact Or.inl ⟨rfl, by intro p hp; cases hp⟩
  | cons p rest ih =>
    intro m wid
    by_cases hc : calculateHandValue p.hand < m
    · have hstep : List.foldl lowestAcc (some m, wid) (p :: rest) =
          List.foldl lowestAcc (some (calculateHandValue p.hand), p.userId) rest := by
        simp [lowestAcc, hc]
      rcases ih (calculateHandValue p.hand) p.userId with ⟨heq, hall⟩ |
        ⟨i, pi, hgets, heq, hlt, hall, hstrict⟩
      · refine Or.inr ⟨0, p, rfl, ?_, hc, ?_, ?_⟩
        · rw [hstep, heq]
        · intro j pj hj
          cases j with
          | zero =>
            cases Option.some.inj hj
            exact Nat.le_refl _
          | succ j =>
            exact hall pj (List.get?_mem hj)
        · intro j pj hj hji
          omega
      · refine Or.inr ⟨i + 1, pi, hgets, ?_, Nat.lt_trans hlt hc, ?_, ?_⟩
        · rw [hstep, heq]
        · intro j pj hj
          cases j with
          | zero =>
            cases Option.some.inj hj
            exact Nat.le_of_lt hlt
          | succ j =>
            exact hall j pj hj
        · intro j pj hj hji
          cases j with
          | zero =>
            cases Option.some.inj hj
            exact hlt
          | succ j =>
            exact hstrict j pj hj (by omega)
    · have hstep : List.foldl lowestAcc (some m, wid) (p :: rest) =
          List.foldl lowestAcc (some m, wid) rest := by
        simp [lowestAcc, hc]
      rcases ih m wid with ⟨heq, hall⟩ | ⟨i, pi, hgets, heq, hlt, hall, hstrict⟩
      · refine Or.inl ⟨by rw [hstep, heq], ?_⟩
        intro q hq
        rcases List.mem_cons.mp hq with rfl | hq2
        · omega
        · exact hall q hq2
      · refine Or.inr ⟨i + 1, pi, hgets, by rw [hstep, heq], hlt, ?_, ?_⟩
        · intro j pj hj
          cases j with
          | zero =>
            cases Option.some.inj hj
            omega
          | succ j =>
            exact hall j pj hj
        · intro j pj hj hji
          cases j with
          | zero =>
            cases Option.some.inj hj
            omega
          | succ j =>
            exact hstrict j pj hj (by omega)

/-- The deck-empty winner fold yields the first player with the lowest hand
value. -/
theorem foldMin_top (p : Player) (rest : List Player) :
    ∃ i pi, (p :: rest).get? i = some pi ∧
      (p :: rest).foldl lowestAcc (Option.none, "") =
        (some (calculateHandValue pi.hand), pi.userId) ∧
      (∀ j pj, (p :: rest).get? j = some pj →
        calculateHandValue pi.hand ≤ calculateHandValue pj.hand) ∧
      (∀ j pj, (p :: rest).get? j = some pj → j < i →
        calculateHandValue pi.hand < calculateHandValue pj.hand) := by
  have hstep : List.foldl lowestAcc (Option.none, "") (p :: rest) =
      List.foldl lowestAcc (some (calculateHandValue p.hand), p.userId) rest := by
    simp [lowestAcc]
  rcases foldMin_spec rest (calculateHandValue p.hand) p.userId with ⟨heq, hall⟩ |
    ⟨i, pi, hgets, heq, hlt, hall, hstrict⟩
  · refine ⟨0, p, rfl, by rw [hstep, heq], ?_, ?_⟩
    · intro j pj hj
      cases j with
      | zero =>
        cases Option.some.inj hj
        exact Nat.le_refl _
      | succ j =>
        exact hall pj (List.get?_mem hj)
    · intro j pj hj hji
      omega
  · refine ⟨i + 1, pi, hgets, by rw [hstep, heq], ?_, ?_⟩
    · intro j pj hj
      cases j with
      | zero =>
        cases Option.some.inj hj
        exact Nat.le_of_lt hlt
      | succ j =>
        exact hall j pj hj
    · intro j pj hj hji
      cases j with
      | zero =>
        cases Option.some.inj hj
        exact hlt
      | succ j =>
        exact hstrict j pj hj (by omega)

/-- C6: in an in-progress state with an empty deck, a deck draw by any seated
player ends the round: the resulting state is `round-end` with
`roundEndedBy = DECK_EMPTY`, and the winner is the player with the lowest
hand value, ties resolved in favour of the earliest seat. -/
theorem playerDrawCard_deck_empty
    (gs : IGameState) (userId : String) (pIdx : Nat) (w : Wallets)
    (hstatus : gs.status = .inProgress)
    (hdeck : gs.deck = [])
    (hfind : gs.players.findIdx? (fun p => p.userId == userId) = some pIdx) :
    ∃ s2 w2, playerDrawCard gs userId .deck w = .ok (s2, w2) ∧
      s2.status = .roundEnd ∧ s2.roundEndedBy = some .DECK_EMPTY ∧
      ∃ i pi, gs.players.get? i = some pi ∧ s2.roundWinnerId = some pi.userId ∧
        (∀ j pj, gs.players.get? j = some pj →
          calculateHandValue pi.hand ≤ calculateHandValue pj.hand) ∧
        (∀ j pj, gs.players.get? j = some pj → j < i →
          calculateHandValue pi.hand < calculateHandValue pj.hand) := by
  rcases hps : gs.players with _ | ⟨p, rest⟩
  · rw [hps] at hfind
    cases hfind
  · obtain ⟨i, pi, hgets, heqfold, hall, hstrict⟩ := foldMin_top p rest
    unfold playerDrawCard
    rw [hfind]
    dsimp only
    rw [hdeck]
    dsimp only
    rw [hps, heqfold]
    dsimp only
    have hok : (handleRoundEndPayouts
        { gs with
          status := .roundEnd, roundEndedBy := some .DECK_EMPTY,
          roundWinnerId := some pi.userId, lastAction := some "deckEmpty",
          handScores := some (calculateAllHandScores
            (gs.players.map (fun q => (q.userId, q.hand)))) } w).isOk = true := by
      apply handleRoundEndPayouts_ok_of_no_penalties w rfl pi.userId rfl
      simp [calculatePayouts]
    obtain ⟨pr, hpr⟩ := isOk_exists hok
    obtain ⟨h1, h2, h3⟩ := handleRoundEndPayouts_fields hpr
    refine ⟨pr.1, pr.2, ?_, h1, h2, i, pi, hgets, h3, hall, hstrict⟩
    rw [← hpr, hps, hdeck]

/-- Witness for C6: two seated players with hand values 7 and 2, empty deck;
A's deck draw ends the round with winner B (seat 1, the unique minimum). -/
theorem playerDrawCard_deck_empty_witness :
    ∃ s2 w2, playerDrawCard
        { baseState with
          players := [mkPlayer "A" [mkCard .Hearts .Seven] [],
                      mkPlayer "B" [mkCard .Hearts .Two] []],
          deck := [] } "A" .deck [] = .ok (s2, w2) ∧
      s2.status = .roundEnd ∧ s2.roundEndedBy = some .DECK_EMPTY ∧
      ∃ i pi,
        ({ baseState with
          players := [mkPlayer "A" [mkCard .Hearts .Seven] [],
                      mkPlayer "B" [mkCard .Hearts .Two] []],
          deck := [] } : IGameState).players.get? i = some pi ∧
        s2.roundWinnerId = some pi.userId ∧
        (∀ j pj, ({ baseState with
          players := [mkPlayer "A" [mkCard .Hearts .Seven] [],
                      mkPlayer "B" [mkCard .Hearts .Two] []],
          deck := [] } : IGameState).players.get? j = some pj →
          calculateHandValue pi.hand ≤ calculateHandValue pj.hand) ∧
        (∀ j pj, ({ baseState with
          players := [mkPlayer "A" [mkCard .Hearts .Seven] [],
                      mkPlayer "B" [mkCard .Hearts .Two] []],
          deck := [] } : IGameState).players.get? j = some pj → j < i →
          calculateHandValue pi.hand < calculateHandValue pj.hand) :=
  playerDrawCard_deck_empty
    { baseState with
      players := [mkPlayer "A" [mkCard .Hearts .Seven] [],
                  mkPlayer "B" [mkCard .Hearts .Two] []],
      deck := [] } "A" 0 [] rfl rfl rfl

/-- A two-player state where it is A's turn (index 0) and two cards remain in
the deck. -/
def turnGuardState : IGameState :=
  { baseState with
    players := [mkPlayer "A" [] [], mkPlayer "B" [] []],
    deck := [mkCard .Hearts .Ace, mkCard .Hearts .Two],
    currentPlayerIndex := 0 }

/-- The same state after marking A as having already acted this turn. -/
def turnGuardActedState : IGameState :=
  { baseState with
    players := [{ mkPlayer "A" [] [] with hasTakenActionThisTurn := true },
                mkPlayer "B" [] []],
    deck := [mkCard .Hearts .Ace, mkCard .Hearts .Two],
    currentPlayerIndex := 0 }

/-- C7 failing run: `playerDrawCard` has no turn or already-acted guard.  With
`currentPlayerIndex = 0`, a draw by B (seat 1) succeeds and grows B's hand;
and A, already flagged `hasTakenActionThisTurn`, draws again successfully. -/
theorem playerDrawCard_no_turn_guard :
    ((playerDrawCard turnGuardState "B" .deck []).map
      (fun r => (r.1.players.map (fun p => p.hand.length), r.1.currentPlayerIndex)) =
      .ok ([0, 1], 0)) ∧
    ((playerDrawCard turnGuardActedState "A" .deck []).map
      (fun r => r.1.players.map (fun p => (p.hand.length, p.hasTakenActionThisTurn))) =
      .ok ([(1, true), (0, false)])) :=
  ⟨rfl, rfl⟩

/-- Erasing the first (rank,suit) match lowers that identity's count by one. -/
theorem countCard_eraseIdx_match :
    ∀ (hand : List Card) (ci : Nat) (c : Card),
      hand.findIdx? (fun h => h.rank == c.rank && h.suit == c.suit) = some ci →
      countCard (hand.eraseIdx ci) c + 1 = countCard hand c := by
  intro hand
  induction hand with
  | nil =>
    intro ci c h
    cases h
  | cons x t ih =>
    intro ci c h
    rw [List.findIdx?_cons] at h
    by_cases hm : (x.rank == c.rank && x.suit == c.suit) = true
    · rw [if_pos hm] at h
      cases Option.some.inj h
      simp [countCard, List.filter, hm]
    · rw [if_neg hm, List.findIdx?_succ] at h
      cases hk : t.findIdx? (fun h => h.rank == c.rank && h.suit == c.suit) with
      | none =>
        rw [hk] at h
        cases h
      | some k =>
        rw [hk] at h
        cases Option.some.inj h
        have := ih k c hk
        rw [Bool.not_eq_true] at hm
        simp only [List.eraseIdx_cons_succ, countCard, List.filter, hm]
        simpa [countCard] using this

/-- Erasing the first (rank,suit) match of one identity leaves every other
identity's count unchanged. -/
theorem countCard_eraseIdx_other :
    ∀ (hand : List Card) (ci : Nat) (c d : Card),
      hand.findIdx? (fun h => h.rank == c.rank && h.suit == c.suit) = some ci →
      (d.rank, d.suit) ≠ (c.rank, c.suit) →
      countCard (hand.eraseIdx ci) d = countCard hand d := by
  intro hand
  induction hand with
  | nil =>
    intro ci c d h _
    cases h
  | cons x t ih =>
    intro ci c d h hne
    rw [List.findIdx?_cons] at h
    by_cases hm : (x.rank == c.rank && x.suit == c.suit) = true
    · rw [if_pos hm] at h
      cases Option.some.inj h
      have hxd : (x.rank == d.rank && x.suit == d.suit) = false := by
        simp only [Bool.and_eq_true, beq_iff_eq] at hm
        simp only [Bool.and_eq_false_iff, beq_eq_false_iff_ne, ne_eq]
        by_cases hrd : x.rank = d.rank
        · right
          intro hsd
          exact hne (by rw [← hrd, ← hsd, hm.1, hm.2])
        · exact Or.inl hrd
      simp [countCard, List.filter, hxd]
    · rw [if_neg hm, List.findIdx?_succ] at h
      cases hk : t.findIdx? (fun h => h.rank == c.rank && h.suit == c.suit) with
      | none =>
        rw [hk] at h
        cases h
      | some k =>
        rw [hk] at h
        cases Option.some.inj h
        have := ih k c d hk hne
        simp only [List.eraseIdx_cons_succ, countCard, List.filter]
        cases hxd : (x.rank == d.rank && x.suit == d.suit) <;>
          simpa [countCard, hxd] using this

/-- C8: if the acting player's `restrictedDiscardCard` records the card they
drew from the discard pile this turn, discarding that same card throws (the
state is unchanged, there being no new state on an error); discarding any
other card held in the hand removes exactly one copy of it — that identity's
count drops by one, all others are untouched — and appends it on top of the
discard pile. -/
theorem playerDiscardCard_restricted_and_normal
    (gs : IGameState) (userId : String) (pIdx : Nat) (p : Player) (c : Card)
    (hfind : gs.players.findIdx? (fun q => q.userId == userId) = some pIdx)
    (hget : gs.players.get? pIdx = some p) :
    (p.restrictedDiscardCard = some (c.rank, c.suit) →
      (playerDiscardCard gs userId c).isOk = false) ∧
    (p.restrictedDiscardCard ≠ some (c.rank, c.suit) →
      ∀ ci, p.hand.findIdx? (fun h => h.rank == c.rank && h.suit == c.suit) = some ci →
      ∃ s2, playerDiscardCard gs userId c = .ok s2 ∧
        s2.players.get? pIdx = some
          { p with hand := p.hand.eraseIdx ci, hasTakenActionThisTurn := true } ∧
        countCard (p.hand.eraseIdx ci) c + 1 = countCard p.hand c ∧
        (∀ d : Card, (d.rank, d.suit) ≠ (c.rank, c.suit) →
          countCard (p.hand.eraseIdx ci) d = countCard p.hand d) ∧
        s2.discardPile = gs.discardPile ++ [c]) := by
  have hpl : pIdx < gs.players.length := (List.get?_eq_some.mp hget).1
  have hgetD : gs.players.getD pIdx emptyPlayer = p := by
    rw [List.getD_eq_getElem?_getD, ← List.get?_eq_getElem?, hget]
    rfl
  constructor
  · intro hres
    unfold playerDiscardCard
    rw [hfind]
    dsimp only
    rw [hgetD, if_pos hres]
    rfl
  · intro hres ci hci
    unfold playerDiscardCard
    rw [hfind]
    dsimp only
    rw [hgetD, if_neg hres, hci]
    refine ⟨_, rfl, ?_, countCard_eraseIdx_match p.hand ci c hci,
      fun d hd => countCard_eraseIdx_other p.hand ci c d hci hd, rfl⟩
    show (gs.players.set pIdx _).get? pIdx = _
    rw [List.get?_eq_getElem?, List.getElem?_set, if_pos rfl, if_pos hpl]

/-- The C8 fixture: player A holds 2♥ and 3♥ and drew the 2♥ from the discard
pile this turn. -/
def restrictedState : IGameState :=
  { baseState with
    players := [{ mkPlayer "A" [mkCard .Hearts .Two, mkCard .Hearts .Three] [] with
      restrictedDiscardCard := some (CardRank.Two, CardSuit.Hearts) }] }

/-- Witness for C8: discarding the restricted 2♥ throws; discarding 3♥
succeeds, removes exactly that card and puts it on top of the discard pile. -/
theorem playerDiscardCard_restricted_and_normal_witness :
    ((playerDiscardCard restrictedState "A" (mkCard .Hearts .Two)).isOk = false) ∧
    (∃ s2, playerDiscardCard restrictedState "A" (mkCard .Hearts .Three) = .ok s2 ∧
      s2.players.get? 0 = some
        { ({ mkPlayer "A" [mkCard .Hearts .Two, mkCard .Hearts .Three] [] with
            restrictedDiscardCard := some (CardRank.Two, CardSuit.Hearts) } : Player) with
          hand := [mkCard .Hearts .Two, mkCard .Hearts .Three].eraseIdx 1,
          hasTakenActionThisTurn := true } ∧
      countCard ([mkCard .Hearts .Two, mkCard .Hearts .Three].eraseIdx 1)
          (mkCard .Hearts .Three) + 1 =
        countCard [mkCard .Hearts .Two, mkCard .Hearts .Three] (mkCard .Hearts .Three) ∧
      (∀ d : Card, (d.rank, d.suit) ≠ (CardRank.Three, CardSuit.Hearts) →
        countCard ([mkCard .Hearts .Two, mkCard .Hearts .Three].eraseIdx 1) d =
          countCard [mkCard .Hearts .Two, mkCard .Hearts .Three] d) ∧
      s2.discardPile = restrictedState.discardPile ++ [mkCard .Hearts .Three]) := by
  constructor
  · exact (playerDiscardCard_restricted_and_normal restrictedState "A" 0
      ({ mkPlayer "A" [mkCard .Hearts .Two, mkCard .Hearts .Three] [] with
        restrictedDiscardCard := some (CardRank.Two, CardSuit.Hearts) })
      (mkCard .Hearts .Two) rfl rfl).1 rfl
  · exact (playerDiscardCard_restricted_and_normal restrictedState "A" 0
      ({ mkPlayer "A" [mkCard .Hearts .Two, mkCard .Hearts .Three] [] with
        restrictedDiscardCard := some (CardRank.Two, CardSuit.Hearts) })
      (mkCard .Hearts .Three) rfl rfl).2 (by decide) 1 rfl

/-- Recogniser for hit actions. -/
def isHitAction : AIAction → Bool
  | .hit _ _ _ => true
  | _ => false

/-- A state where it is the bot's turn, the bot's hand admits no spread but
holds K♠, and the opponent has the spread K♥ K♦ K♣ on the table. -/
def botHitState : IGameState :=
  { baseState with
    players :=
      [{ mkPlayer "bot"
          [mkCard .Spades .King, mkCard .Hearts .Two, mkCard .Diamonds .Five,
           mkCard .Clubs .Seven, mkCard .Spades .Ace] [] with isAI := true },
       mkPlayer "opp"
        [mkCard .Hearts .Ace, mkCard .Hearts .Three, mkCard .Hearts .Four,
         mkCard .Hearts .Five, mkCard .Hearts .Six]
        [[mkCard .Hearts .King, mkCard .Diamonds .King, mkCard .Clubs .King]]],
    currentPlayerIndex := 0 }

/-- C10 failing run: `getAIPlayerAction` can never return a hit — the
strategist's hit-search loop body is commented out in the source — and in the
concrete state where the bot has no spread available but K♠ in hand can
legally hit the opponent's king meld, the strategist returns Draw instead of
the claimed Hit. -/
theorem getAIPlayerAction_hit_step_dead :
    (∀ gs aiPlayerId r, isHitAction (getAIPlayerAction gs aiPlayerId r) = false) ∧
    getAIPlayerAction botHitState "bot" 0 = .draw ∧
    canHitSpread [mkCard .Hearts .King, mkCard .Diamonds .King, mkCard .Clubs .King]
      (mkCard .Spades .King) = true ∧
    findPossibleSpreads
      [mkCard .Spades .King, mkCard .Hearts .Two, mkCard .Diamonds .Five,
       mkCard .Clubs .Seven, mkCard .Spades .Ace] = [] := by
  refine ⟨?_, rfl, rfl, rfl⟩
  intro gs aiPlayerId r
  unfold getAIPlayerAction
  repeat' first
    | rfl
    | split
    | (dsimp only; split)

end ReemTeam
